import Mathlib

/-!
Shallow embedding of the transcript assembly and archival pipeline of
`src/components/ConversationEnded.tsx` (nxt-client-pages-twilio-webchat).

Conventions of the embedding:
* TypeScript `undefined`/`null` are modelled by `Option.none`; a present JS
  array (even an empty one) is `Option.some` of a list.  This matters because
  in JavaScript an empty array is *truthy*, so `if (messages && users)` and
  `if (message.attachedMedia)` take the then-branch on empty arrays.
* A thrown JS runtime exception (e.g. a `TypeError` from reading a property
  of `undefined`) is modelled by `Except.error (JsError. ...)`.
* The awaited result of the asynchronous, fallible
  `media.getContentTemporaryUrl()` is modelled as a data field
  `tempUrl : Except String String` on the media value: `ok url` for a
  successful resolution, `error e` for a rejected promise (the caught
  exception rendered as a string).
* Effects of the surrounding browser environment (the third-party `slugify`
  library, `fetch`, JSZip's `generateAsync`, `URL.createObjectURL`) are
  modelled as an explicit `Env` record of pure functions, universally
  quantified in the theorems.
* `generateDuration` lives in `../utils/generateDuration`, outside the
  provided sources; no claim depends on the duration text, so the renderer
  is parameterised over it (`genDuration`).
* Template-literal interpolation of a possibly-`undefined` value renders the
  string `"undefined"`; `optStr` reproduces this.
-/

/-- A JavaScript runtime exception, e.g. the `TypeError` raised by reading a
property of `undefined`. -/
inductive JsError where
  | typeError (msg : String)
deriving Repr, DecidableEq

instance {ε α : Type} [DecidableEq ε] [DecidableEq α] : DecidableEq (Except ε α) :=
  fun a b =>
    match a, b with
    | .ok x, .ok y => if h : x = y then .isTrue (by rw [h]) else .isFalse (by simp [h])
    | .error x, .error y => if h : x = y then .isTrue (by rw [h]) else .isFalse (by simp [h])
    | .ok _, .error _ => .isFalse (by simp)
    | .error _, .ok _ => .isFalse (by simp)

/-- A Twilio `Media` attachment.  `tempUrl` is the settled result of awaiting
`media.getContentTemporaryUrl()`. -/
structure Media where
  filename : String
  contentType : String
  size : Nat
  tempUrl : Except String String
deriving Repr, DecidableEq

/-- The fields of a JS `Date` value the component reads: `getHours()`,
`getMinutes()`, `toLocaleString("default", { dateStyle: "long" })` and
`toDateString()`. -/
structure JsDate where
  hours : Nat
  minutes : Nat
  localeLongDate : String
  dateString : String
deriving Repr, DecidableEq

/-- A Twilio `Message` as read by the component: `author`, `body`,
`dateCreated` and `attachedMedia` (`Media[] | null`, hence `Option`). -/
structure Message where
  author : String
  body : String
  dateCreated : JsDate
  attachedMedia : Option (List Media)
deriving Repr, DecidableEq

/-- A Twilio `User`: `identity` and `friendlyName`. -/
structure User where
  identity : String
  friendlyName : String
deriving Repr, DecidableEq

/-- The `Transcript` interface of `ConversationEnded.tsx` (lines 19-24):
`author?: string`, `body: string`, `timeStamp: Date`,
`attachedMedia?: Media[] | null`. -/
structure Transcript where
  author : Option String
  body : String
  timeStamp : JsDate
  attachedMedia : Option (List Media)
deriving Repr, DecidableEq

/-- JS template-literal rendering of a possibly-`undefined` string. -/
def optStr : Option String → String
  | none => "undefined"
  | some s => s

/-- The body of `getTranscriptData`'s loop: one pushed record per message,
resolving the display author (`"Concierge"` passes through; otherwise the
`friendlyName` of the user whose `identity` matches, absent if none does). -/
def entryOf (users : List User) (message : Message) : Transcript :=
  let currentUser := users.find? (fun user => user.identity == message.author)
  { author := if message.author == "Concierge" then some message.author
              else currentUser.map (fun u => u.friendlyName)
    body := message.body
    timeStamp := message.dateCreated
    attachedMedia := message.attachedMedia }

/-- `getTranscriptData` (lines 26-40).  The guard `if (messages && users)`
tests JS truthiness: it fails only when an input is `undefined` (a present
empty array is truthy).  The loop pushes one entry per message, in order. -/
def getTranscriptData (messages : Option (List Message)) (users : Option (List User)) :
    List Transcript :=
  match messages, users with
  | some messages, some users =>
      messages.foldl (fun transcriptData message => transcriptData ++ [entryOf users message]) []
  | _, _ => []

/-- The pair returned by `getNames`. -/
structure Names where
  customerName : Option String
  agentNames : List (Option String)
deriving Repr, DecidableEq

/-- `getNames` (lines 42-47).  `transcriptData[0].author` on an empty array
reads a property of `undefined` and throws; otherwise `agentNames` is the
plain `filter` of every author occurrence that is neither the customer name
nor `"Concierge"` (note: occurrences, not deduplicated). -/
def getNames (transcriptData : List Transcript) : Except JsError Names :=
  let names := transcriptData.map (fun message => message.author)
  match transcriptData with
  | [] => .error (.typeError "Cannot read properties of undefined (reading author)")
  | first :: _ =>
      let customerName := first.author
      let agentNames := names.filter (fun name => name != customerName && name != some "Concierge")
      .ok { customerName := customerName, agentNames := agentNames }

/-- `doubleDigit` (line 50): zero-pads a number below 10. -/
def doubleDigit (number : Nat) : String :=
  (if number < 10 then "0" else "") ++ toString number

/-- The conversation title (lines 55-58): start from
`Conversation with {customerName}` and append `" and {name}"` for each
element of `agentNames` in order.  (The source's `if (agentNames.length > 0)`
guard is redundant: `forEach` over an empty array appends nothing, exactly as
`foldl` over `[]` does.) -/
def conversationTitle (names : Names) : String :=
  names.agentNames.foldl (fun conversationTitle name => conversationTitle ++ " and " ++ optStr name)
    ("Conversation with " ++ optStr names.customerName)

/-- The body-line text of one entry before the attachment marker
(lines 61-64): `{bullet} {HH}:{MM}  {author}: {body}` with `*` for the
customer and `+` for everyone else. -/
def renderBase (customerName : Option String) (message : Transcript) : String :=
  let bulletPoint := if message.author == customerName then "*" else "+"
  bulletPoint ++ " " ++ doubleDigit message.timeStamp.hours ++ ":" ++
    doubleDigit message.timeStamp.minutes ++ "  " ++ optStr message.author ++ ": " ++ message.body

/-- One iteration of `generateTranscript`'s loop (lines 61-67).  The guard
`if (message.attachedMedia)` is JS truthiness: a present-but-empty array is
truthy, and then `message.attachedMedia[0].filename` reads `filename` of
`undefined` and throws. -/
def renderLine (customerName : Option String) (message : Transcript) : Except JsError String :=
  match message.attachedMedia with
  | none => .ok (renderBase customerName message)
  | some [] => .error (.typeError "Cannot read properties of undefined (reading filename)")
  | some (m :: _) =>
      .ok (renderBase customerName message ++ " (** Attached file " ++ m.filename ++ " **)")

/-- The accumulation loop of `generateTranscript` (lines 60-69): append each
rendered line plus a blank line, propagating a thrown exception. -/
def renderBody (customerName : Option String) : List Transcript → String → Except JsError String
  | [], transcript => .ok transcript
  | message :: rest, transcript =>
      match renderLine customerName message with
      | .ok messageText => renderBody customerName rest (transcript ++ messageText ++ "\n\n")
      | .error e => .error e

/-- `generateTranscript` (lines 49-71), parameterised over the external
`generateDuration` helper.  An empty entry list throws inside `getNames`
before any text is produced. -/
def generateTranscript (genDuration : List Transcript → String)
    (transcriptData : List Transcript) : Except JsError String :=
  match getNames transcriptData with
  | .error e => .error e
  | .ok names =>
      match transcriptData with
      | [] => .error (.typeError "Cannot read properties of undefined (reading timeStamp)")
      | first :: _ =>
          let conversationStartDate := first.timeStamp.localeLongDate
          let duration := genDuration transcriptData
          let header := conversationTitle names ++ "\n\nDate: " ++ conversationStartDate ++
            "\nDuration: " ++ duration ++ "\n\n"
          renderBody names.customerName transcriptData header

/-- An element of the `mediaURLs` array built by `getMediaUrls`. -/
structure MediaURL where
  url : String
  filename : String
deriving Repr, DecidableEq

/-- A JS object value is always truthy, so the ternary's condition `media ?`
on an element of a `Media[]` array holds. -/
def mediaTruthy (_ : Media) : Bool := true

/-- The ternary of line 99: `media ? await media.getContentTemporaryUrl() :
URL.createObjectURL(file)`.  The fallback builds an object URL from the
synthesized file-like value. -/
def resolveMedia (createObjectURL : Media → String) (media : Media) : Except String String :=
  if mediaTruthy media then media.tempUrl else .ok (createObjectURL media)

/-- One iteration of `getMediaUrls`'s inner loop (lines 92-104): on success
push `{url, filename}`; on a thrown rejection log
`Failed downloading message attachment: {e}` and continue. -/
def mediaStep (createObjectURL : Media → String) (acc : List MediaURL × List String)
    (media : Media) : List MediaURL × List String :=
  match resolveMedia createObjectURL media with
  | .ok url => (acc.1 ++ [{ url := url, filename := media.filename }], acc.2)
  | .error e => (acc.1, acc.2 ++ ["Failed downloading message attachment: " ++ e])

/-- `getMediaUrls` (lines 88-107).  `messages?.filter(m => m.attachedMedia)`
keeps messages whose `attachedMedia` is a present array (truthy, even when
empty); the inner loop iterates `message.attachedMedia || []`.  Returns the
collected `mediaURLs` together with the error log lines. -/
def getMediaUrls (createObjectURL : Media → String) (messages : Option (List Message)) :
    List MediaURL × List String :=
  let mediaMessages : List Message :=
    match messages with
    | some ms => ms.filter (fun message => message.attachedMedia.isSome)
    | none => []
  mediaMessages.foldl
    (fun acc message => (message.attachedMedia.getD []).foldl (mediaStep createObjectURL) acc)
    ([], [])

/-- The browser-environment collaborators of `handleDownloadTranscript`:
the third-party `slugify` library, `fetch` of a resolved media URL (error
covers both a network failure and a non-200 status, per lines 129-132),
JSZip's `generateAsync` over the folder's entries, and
`URL.createObjectURL`. -/
structure Env where
  slugify : String → String
  fetch : String → Except String String
  zipGenerate : List (String × Except String String) → Except String String
  createObjectURL : Media → String

/-- What `handleDownloadTranscript` did: the zip folder (name and entries)
when the archive path was taken, the artifact handed to `saveAs`
(filename, blob) if any, and the error log lines. -/
structure DownloadOutcome where
  folderName : Option String
  zipEntries : List (String × Except String String)
  saved : Option (String × String)
  logs : List String
deriving Repr, DecidableEq

/-- The filename stem (lines 117-122): `chat with {customerName}` + one
`" and {name}"` per agent occurrence + `-{firstEntryDate.toDateString()}`,
then `slugify(...).toLowerCase()`. -/
def mkFileName (env : Env) (names : Names) (first : Transcript) : String :=
  let fileName := names.agentNames.foldl (fun fileName name => fileName ++ " and " ++ optStr name)
    ("chat with " ++ optStr names.customerName)
  (env.slugify (fileName ++ "-" ++ first.timeStamp.dateString)).toLower

/-- The entries placed in the zip folder (lines 126-134): first
`{fileName}.txt` holding the transcript blob, then one entry per media URL
holding its fetched bytes. -/
def zipEntriesFor (env : Env) (fileName : String) (transcriptBlob : String)
    (mediaURLs : List MediaURL) : List (String × Except String String) :=
  (fileName ++ ".txt", Except.ok transcriptBlob) ::
    mediaURLs.map (fun mediaURL => (mediaURL.filename, env.fetch mediaURL.url))

/-- The packaging step (lines 124-141): with at least one media URL, build a
zip folder holding `{fileName}.txt` (the transcript blob) and one entry per
media URL (its fetched bytes); `generateAsync` success hands
`{fileName}.zip` to `saveAs`, failure logs
`Failed zipping message attachments: {e}` and saves nothing.  With no media
URLs, hand the plain text blob `{fileName}.txt` to `saveAs`. -/
def packageArtifact (env : Env) (fileName : String) (transcriptBlob : String)
    (mediaURLs : List MediaURL) (mediaLogs : List String) : DownloadOutcome :=
  match mediaURLs with
  | [] =>
      { folderName := none, zipEntries := [],
        saved := some (fileName ++ ".txt", transcriptBlob), logs := mediaLogs }
  | _ :: _ =>
      match env.zipGenerate (zipEntriesFor env fileName transcriptBlob mediaURLs) with
      | .ok blob =>
          { folderName := some fileName,
            zipEntries := zipEntriesFor env fileName transcriptBlob mediaURLs,
            saved := some (fileName ++ ".zip", blob), logs := mediaLogs }
      | .error e =>
          { folderName := some fileName,
            zipEntries := zipEntriesFor env fileName transcriptBlob mediaURLs, saved := none,
            logs := mediaLogs ++ ["Failed zipping message attachments: " ++ e] }

/-- `handleDownloadTranscript` (lines 109-143).  A thrown exception (empty
transcript data reaching `getNames`) aborts before the blob is created and
before any `saveAs` call; otherwise the outcome records the packaging. -/
def handleDownloadTranscript (env : Env) (genDuration : List Transcript → String)
    (messages : Option (List Message)) (users : Option (List User)) :
    Except JsError DownloadOutcome :=
  let transcriptData := getTranscriptData messages users
  match generateTranscript genDuration transcriptData with
  | .error e => .error e
  | .ok transcript =>
      let mediaResult := getMediaUrls env.createObjectURL messages
      match getNames transcriptData, transcriptData with
      | .ok names, first :: _ =>
          .ok (packageArtifact env (mkFileName env names first) transcript
            mediaResult.1 mediaResult.2)
      | _, _ => .error (.typeError "Cannot read properties of undefined (reading author)")

/-! ### Helper lemmas about the folds used in the embedding -/

/-- The push-loop of `getTranscriptData` is a `map`. -/
theorem foldl_push_eq_map (users : List User) :
    ∀ (msgs : List Message) (acc : List Transcript),
      msgs.foldl (fun transcriptData message => transcriptData ++ [entryOf users message]) acc =
        acc ++ msgs.map (entryOf users)
  | [], acc => by simp
  | m :: rest, acc => by
    simp only [List.foldl_cons, List.map_cons]
    rw [foldl_push_eq_map users rest]
    simp

/-- Spec-side reading of the title/stem fold: one `" and {name}"` segment per
occurrence, in order. -/
def appendAgents (agentNames : List (Option String)) : String :=
  agentNames.foldr (fun name racc => " and " ++ optStr name ++ racc) ""

theorem foldl_and_eq_appendAgents :
    ∀ (l : List (Option String)) (init : String),
      l.foldl (fun t name => t ++ " and " ++ optStr name) init = init ++ appendAgents l
  | [], init => by simp [appendAgents, String.append_empty]
  | a :: rest, init => by
    simp only [List.foldl_cons]
    rw [foldl_and_eq_appendAgents rest]
    simp [appendAgents, String.append_assoc]

theorem conversationTitle_eq (names : Names) :
    conversationTitle names =
      "Conversation with " ++ optStr names.customerName ++ appendAgents names.agentNames := by
  rw [conversationTitle, foldl_and_eq_appendAgents, String.append_assoc]

/-! ### Characterisation of `getMediaUrls` -/

/-- The media URLs collected from a flat list of media values: one entry per
successful temporary-URL resolution, in order. -/
def mediaSuccesses : List Media → List MediaURL
  | [] => []
  | m :: rest =>
    match m.tempUrl with
    | .ok url => { url := url, filename := m.filename } :: mediaSuccesses rest
    | .error _ => mediaSuccesses rest

/-- The log lines produced from a flat list of media values: one per failed
temporary-URL resolution, in order. -/
def mediaFailLogs : List Media → List String
  | [] => []
  | m :: rest =>
    match m.tempUrl with
    | .ok _ => mediaFailLogs rest
    | .error e => ("Failed downloading message attachment: " ++ e) :: mediaFailLogs rest

theorem mediaSuccesses_append (xs ys : List Media) :
    mediaSuccesses (xs ++ ys) = mediaSuccesses xs ++ mediaSuccesses ys := by
  induction xs with
  | nil => simp [mediaSuccesses]
  | cons m rest ih =>
    simp only [List.cons_append, mediaSuccesses]
    cases m.tempUrl <;> simp [ih]

theorem mediaFailLogs_append (xs ys : List Media) :
    mediaFailLogs (xs ++ ys) = mediaFailLogs xs ++ mediaFailLogs ys := by
  induction xs with
  | nil => simp [mediaFailLogs]
  | cons m rest ih =>
    simp only [List.cons_append, mediaFailLogs]
    cases m.tempUrl <;> simp [ih]

theorem resolveMedia_eq_tempUrl (createObjectURL : Media → String) (media : Media) :
    resolveMedia createObjectURL media = media.tempUrl := rfl

theorem foldl_mediaStep (createObjectURL : Media → String) :
    ∀ (medias : List Media) (acc : List MediaURL × List String),
      medias.foldl (mediaStep createObjectURL) acc =
        (acc.1 ++ mediaSuccesses medias, acc.2 ++ mediaFailLogs medias)
  | [], acc => by simp [mediaSuccesses, mediaFailLogs]
  | m :: rest, acc => by
    simp only [List.foldl_cons]
    rw [foldl_mediaStep createObjectURL rest]
    simp only [mediaStep, resolveMedia_eq_tempUrl]
    cases h : m.tempUrl <;> simp [mediaSuccesses, mediaFailLogs, h]

/-- All media values the inner loop of `getMediaUrls` iterates, flattened in
order. -/
def allMedia (msgs : List Message) : List Media :=
  msgs.flatMap (fun message => message.attachedMedia.getD [])

/-- `allMedia` over an optional message list (`undefined` contributes
nothing). -/
def allMediaOpt (messages : Option (List Message)) : List Media :=
  allMedia (messages.getD [])

theorem getMediaUrls_some (createObjectURL : Media → String) (msgs : List Message) :
    getMediaUrls createObjectURL (some msgs) =
      (mediaSuccesses (allMedia msgs), mediaFailLogs (allMedia msgs)) := by
  rw [getMediaUrls]
  suffices h : ∀ (acc : List MediaURL × List String),
      (msgs.filter (fun message => message.attachedMedia.isSome)).foldl
        (fun acc message => (message.attachedMedia.getD []).foldl (mediaStep createObjectURL) acc)
        acc =
      (acc.1 ++ mediaSuccesses (allMedia msgs), acc.2 ++ mediaFailLogs (allMedia msgs)) by
    simpa using h ([], [])
  induction msgs with
  | nil => intro acc; simp [allMedia, mediaSuccesses, mediaFailLogs]
  | cons m rest ih =>
    intro acc
    have hall : allMedia (m :: rest) = m.attachedMedia.getD [] ++ allMedia rest := by
      simp [allMedia]
    cases hm : m.attachedMedia with
    | none =>
      rw [List.filter_cons]
      simp only [hm, Option.isSome_none, Bool.false_eq_true, if_neg, ite_false]
      rw [ih]
      simp [hall, hm]
    | some l =>
      rw [List.filter_cons]
      simp only [hm, Option.isSome_some, ite_true]
      rw [List.foldl_cons, ih, hm]
      simp only [Option.getD_some]
      rw [foldl_mediaStep]
      simp [hall, hm, mediaSuccesses_append, mediaFailLogs_append, List.append_assoc]

theorem getMediaUrls_eq (createObjectURL : Media → String) (messages : Option (List Message)) :
    getMediaUrls createObjectURL messages =
      (mediaSuccesses (allMediaOpt messages), mediaFailLogs (allMediaOpt messages)) := by
  cases messages with
  | none => simp [getMediaUrls, allMediaOpt, allMedia, mediaSuccesses, mediaFailLogs]
  | some msgs => rw [getMediaUrls_some]; rfl

theorem mediaSuccesses_mem {mu : MediaURL} :
    ∀ {l : List Media}, mu ∈ mediaSuccesses l →
      ∃ media, media ∈ l ∧ media.tempUrl = .ok mu.url ∧ media.filename = mu.filename := by
  intro l
  induction l with
  | nil => intro h; simp [mediaSuccesses] at h
  | cons m rest ih =>
    intro h
    rw [mediaSuccesses] at h
    revert h
    cases hm : m.tempUrl with
    | ok url =>
      intro h
      rcases List.mem_cons.mp h with h | h
      · exact ⟨m, List.mem_cons_self m rest, by rw [hm, h], by rw [h]⟩
      · obtain ⟨media, hmem, hok, hfn⟩ := ih h
        exact ⟨media, List.mem_cons_of_mem m hmem, hok, hfn⟩
    | error e =>
      intro h
      obtain ⟨media, hmem, hok, hfn⟩ := ih h
      exact ⟨media, List.mem_cons_of_mem m hmem, hok, hfn⟩

theorem mediaSuccesses_nil_of_all_fail :
    ∀ {l : List Media}, (∀ media ∈ l, media.tempUrl.isOk = false) → mediaSuccesses l = [] := by
  intro l
  induction l with
  | nil => intro _; rfl
  | cons m rest ih =>
    intro h
    rw [mediaSuccesses]
    have hm := h m (List.mem_cons_self m rest)
    revert hm
    cases m.tempUrl with
    | ok url => intro hm; simp [Except.isOk, Except.toBool] at hm
    | error e => intro _; exact ih fun media hmem => h media (List.mem_cons_of_mem m hmem)

/-! ### Lemmas about the renderer -/

theorem getNames_cons (first : Transcript) (rest : List Transcript) :
    getNames (first :: rest) =
      .ok { customerName := first.author,
            agentNames := ((first :: rest).map (fun message => message.author)).filter
              (fun name => name != first.author && name != some "Concierge") } := rfl

theorem renderLine_ok_of_ne (customerName : Option String) (message : Transcript)
    (h : message.attachedMedia ≠ some []) :
    ∃ s, renderLine customerName message = .ok s := by
  rw [renderLine]
  cases hm : message.attachedMedia with
  | none => exact ⟨_, rfl⟩
  | some l =>
    cases l with
    | nil => exact absurd hm h
    | cons m rest => exact ⟨_, rfl⟩

theorem renderBody_ok (customerName : Option String) :
    ∀ (l : List Transcript), (∀ m ∈ l, m.attachedMedia ≠ some []) →
      ∀ acc, ∃ s, renderBody customerName l acc = .ok s
  | [], _, acc => ⟨acc, rfl⟩
  | message :: rest, h, acc => by
    obtain ⟨line, hline⟩ :=
      renderLine_ok_of_ne customerName message (h message (List.mem_cons_self message rest))
    obtain ⟨s, hs⟩ := renderBody_ok customerName rest
      (fun m hm => h m (List.mem_cons_of_mem message hm)) (acc ++ line ++ "\n\n")
    exact ⟨s, by rw [renderBody, hline]; exact hs⟩

theorem renderBody_error (customerName : Option String) :
    ∀ (l : List Transcript), (∃ m ∈ l, m.attachedMedia = some []) →
      ∀ acc, ∃ e, renderBody customerName l acc = .error e
  | [], h, _ => by simp at h
  | message :: rest, h, acc => by
    by_cases hm : message.attachedMedia = some []
    · refine ⟨.typeError "Cannot read properties of undefined (reading filename)", ?_⟩
      rw [renderBody, renderLine, hm]
    · obtain ⟨m, hmem, hme⟩ := h
      have hmr : m ∈ rest := by
        rcases List.mem_cons.mp hmem with heq | hmr
        · exact absurd (heq ▸ hme) hm
        · exact hmr
      obtain ⟨line, hline⟩ := renderLine_ok_of_ne customerName message hm
      obtain ⟨e, he⟩ := renderBody_error customerName rest ⟨m, hmr, hme⟩ (acc ++ line ++ "\n\n")
      exact ⟨e, by rw [renderBody, hline]; exact he⟩

theorem generateTranscript_cons (genDuration : List Transcript → String)
    (first : Transcript) (rest : List Transcript) :
    generateTranscript genDuration (first :: rest) =
      renderBody first.author (first :: rest)
        (conversationTitle (Names.mk first.author
            (((first :: rest).map (fun message => message.author)).filter
              (fun name => name != first.author && name != some "Concierge"))) ++
          "\n\nDate: " ++ first.timeStamp.localeLongDate ++
          "\nDuration: " ++ genDuration (first :: rest) ++ "\n\n") := rfl

/-! ### Lemmas about `handleDownloadTranscript` -/

theorem handleDownloadTranscript_ok_build (env : Env) (genDuration : List Transcript → String)
    (messages : Option (List Message)) (users : Option (List User))
    (first : Transcript) (rest : List Transcript) (transcript : String) (names : Names)
    (htd : getTranscriptData messages users = first :: rest)
    (htr : generateTranscript genDuration (first :: rest) = .ok transcript)
    (hn : getNames (first :: rest) = .ok names) :
    handleDownloadTranscript env genDuration messages users =
      .ok (packageArtifact env (mkFileName env names first) transcript
        (getMediaUrls env.createObjectURL messages).1
        (getMediaUrls env.createObjectURL messages).2) := by
  rw [handleDownloadTranscript]
  simp only [htd, htr, hn]

theorem handleDownloadTranscript_ok_elim (env : Env) (genDuration : List Transcript → String)
    (messages : Option (List Message)) (users : Option (List User)) (out : DownloadOutcome)
    (hok : handleDownloadTranscript env genDuration messages users = .ok out) :
    ∃ first rest transcript names,
      getTranscriptData messages users = first :: rest ∧
      generateTranscript genDuration (first :: rest) = .ok transcript ∧
      getNames (first :: rest) = .ok names ∧
      out = packageArtifact env (mkFileName env names first) transcript
        (getMediaUrls env.createObjectURL messages).1
        (getMediaUrls env.createObjectURL messages).2 := by
  rw [handleDownloadTranscript] at hok
  cases htd : getTranscriptData messages users with
  | nil =>
    rw [htd] at hok
    simp [generateTranscript, getNames] at hok
  | cons first rest =>
    rw [htd] at hok
    cases htr : generateTranscript genDuration (first :: rest) with
    | error e => rw [htr] at hok; exact absurd hok (by simp)
    | ok transcript =>
      rw [htr] at hok
      simp only [getNames_cons, Except.ok.injEq] at hok
      exact ⟨first, rest, transcript, _, rfl, htr, getNames_cons first rest, hok.symm⟩

theorem packageArtifact_nil (env : Env) (fileName transcriptBlob : String)
    (mediaLogs : List String) :
    packageArtifact env fileName transcriptBlob [] mediaLogs =
      { folderName := none, zipEntries := [],
        saved := some (fileName ++ ".txt", transcriptBlob), logs := mediaLogs } := rfl

theorem packageArtifact_cons_zipEntries (env : Env) (fileName transcriptBlob : String)
    (u : MediaURL) (us : List MediaURL) (mediaLogs : List String) :
    (packageArtifact env fileName transcriptBlob (u :: us) mediaLogs).zipEntries =
      zipEntriesFor env fileName transcriptBlob (u :: us) := by
  simp only [packageArtifact]
  split <;> rfl

theorem packageArtifact_cons_folderName (env : Env) (fileName transcriptBlob : String)
    (u : MediaURL) (us : List MediaURL) (mediaLogs : List String) :
    (packageArtifact env fileName transcriptBlob (u :: us) mediaLogs).folderName =
      some fileName := by
  simp only [packageArtifact]
  split <;> rfl

theorem packageArtifact_cons_logs_mem (env : Env) (fileName transcriptBlob : String)
    (u : MediaURL) (us : List MediaURL) (mediaLogs : List String) (x : String)
    (hx : x ∈ mediaLogs) :
    x ∈ (packageArtifact env fileName transcriptBlob (u :: us) mediaLogs).logs := by
  simp only [packageArtifact]
  split
  · exact hx
  · exact List.mem_append_left _ hx

theorem packageArtifact_cons_saved_of_ok (env : Env) (fileName transcriptBlob : String)
    (u : MediaURL) (us : List MediaURL) (mediaLogs : List String) (blob : String)
    (h : env.zipGenerate (zipEntriesFor env fileName transcriptBlob (u :: us)) = .ok blob) :
    (packageArtifact env fileName transcriptBlob (u :: us) mediaLogs).saved =
      some (fileName ++ ".zip", blob) := by
  simp only [packageArtifact]
  rw [h]

theorem packageArtifact_cons_of_error (env : Env) (fileName transcriptBlob : String)
    (u : MediaURL) (us : List MediaURL) (mediaLogs : List String) (e : String)
    (h : env.zipGenerate (zipEntriesFor env fileName transcriptBlob (u :: us)) = .error e) :
    (packageArtifact env fileName transcriptBlob (u :: us) mediaLogs).saved = none ∧
    (packageArtifact env fileName transcriptBlob (u :: us) mediaLogs).logs =
      mediaLogs ++ ["Failed zipping message attachments: " ++ e] := by
  simp only [packageArtifact]
  rw [h]
  exact ⟨rfl, rfl⟩

/-! ### Concrete fixtures for counterexamples and witnesses -/

def dDate : JsDate :=
  { hours := 9, minutes := 5, localeLongDate := "January 1, 2024",
    dateString := "Mon Jan 01 2024" }

def userAlice : User := { identity := "alice-id", friendlyName := "Alice" }

def mediaA : Media :=
  { filename := "a.png", contentType := "image/png", size := 3, tempUrl := .ok "url-a" }

def mediaOkB : Media :=
  { filename := "b.png", contentType := "image/png", size := 4, tempUrl := .ok "url-b" }

def mediaFailF : Media :=
  { filename := "f.png", contentType := "image/png", size := 5, tempUrl := .error "boom" }

def msgPlain : Message :=
  { author := "alice-id", body := "hi", dateCreated := dDate, attachedMedia := none }

def msgWithMedia : Message :=
  { author := "alice-id", body := "hi", dateCreated := dDate,
    attachedMedia := some [mediaFailF, mediaOkB] }

def msgOkMedia : Message :=
  { author := "alice-id", body := "hi", dateCreated := dDate,
    attachedMedia := some [mediaOkB] }

def tAlice : Transcript :=
  { author := some "Alice", body := "hi", timeStamp := dDate, attachedMedia := none }

def tBob : Transcript :=
  { author := some "Bob", body := "hello", timeStamp := dDate, attachedMedia := none }

def tWithTwo : Transcript :=
  { author := some "Alice", body := "see", timeStamp := dDate,
    attachedMedia := some [mediaA, mediaOkB] }

def tEmptyAtt : Transcript :=
  { author := some "Alice", body := "x", timeStamp := dDate, attachedMedia := some [] }

def env0 : Env :=
  { slugify := fun s => s, fetch := fun url => .ok ("bytes:" ++ url),
    zipGenerate := fun _ => .ok "zipblob",
    createObjectURL := fun media => "blob:" ++ media.filename }

def envZipFail : Env :=
  { slugify := fun s => s, fetch := fun url => .ok ("bytes:" ++ url),
    zipGenerate := fun _ => .error "zipboom",
    createObjectURL := fun media => "blob:" ++ media.filename }

def gd0 : List Transcript → String := fun _ => "1 minute"

/-! ### Claims -/

/-- C1 counterexample: the code does not deduplicate agent names.  For
entries authored [Alice, Bob, Bob] the rendered title is
`Conversation with Alice and Bob and Bob`, not the
`Conversation with Alice and Bob` that "appended exactly once per distinct
agent name" predicts. -/
theorem c1_title_counterexample :
    Except.map conversationTitle (getNames [tAlice, tBob, tBob]) =
      .ok "Conversation with Alice and Bob and Bob" ∧
    "Conversation with Alice and Bob and Bob" ≠ "Conversation with Alice and Bob" := by
  constructor
  · rfl
  · decide

/-- C1 (amended): for every non-empty entry list, the rendered conversation
title is `Conversation with {customer}` (customer = author of the first
entry) with `" and {name}"` appended once per *occurrence* of each author
name that is neither the customer name nor `"Concierge"` (duplicates
repeated, not deduplicated), in input order; repeats of the customer name
are filtered out, so for entries authored [Alice, Bob, Alice] the title is
still `Conversation with Alice and Bob`. -/
theorem c1_title_amended (first : Transcript) (rest : List Transcript) :
    Except.map conversationTitle (getNames (first :: rest)) =
      .ok ("Conversation with " ++ optStr first.author ++
        appendAgents (((first :: rest).map (fun message => message.author)).filter
          (fun name => name != first.author && name != some "Concierge"))) := by
  rw [getNames_cons]
  simp only [Except.map]
  rw [conversationTitle_eq]

/-- C3 counterexample: with a present-but-empty participant list and a
non-empty message list, extraction does *not* return an empty sequence — a
JS empty array is truthy, so `if (messages && users)` still runs the loop
and one entry per message is produced (with an unresolved author). -/
theorem c3_empty_users_counterexample :
    getTranscriptData (some [msgPlain]) (some []) = [entryOf [] msgPlain] ∧
    getTranscriptData (some [msgPlain]) (some []) ≠ [] := by
  constructor
  · rfl
  · decide

/-- C3 (amended): extraction returns an empty sequence, raising no error,
when either input is absent (`undefined`) or when the message sequence is
empty; a present-but-empty participant sequence alone does not empty the
result. -/
theorem c3_absent_or_empty_messages :
    (∀ users : Option (List User), getTranscriptData none users = []) ∧
    (∀ messages : Option (List Message), getTranscriptData messages none = []) ∧
    (∀ users : List User, getTranscriptData (some []) (some users) = []) := by
  refine ⟨fun users => ?_, fun messages => ?_, fun users => rfl⟩
  · cases users <;> rfl
  · cases messages <;> rfl

/-- C7: with both inputs present, extraction yields exactly one transcript
entry per message, in the same order and with the same count. -/
theorem c7_extraction_order (msgs : List Message) (users : List User) :
    getTranscriptData (some msgs) (some users) = msgs.map (entryOf users) ∧
    (getTranscriptData (some msgs) (some users)).length = msgs.length := by
  have h : getTranscriptData (some msgs) (some users) = msgs.map (entryOf users) := by
    simpa [getTranscriptData] using foldl_push_eq_map users msgs []
  exact ⟨h, by rw [h, List.length_map]⟩

/-- C8: an entry with one or more attached media items renders its body line
with the literal marker `" (** Attached file {firstMediaFilename} **)"`,
using only the first attached item's filename regardless of the rest. -/
theorem c8_attachment_marker (customerName : Option String) (message : Transcript)
    (m : Media) (rest : List Media) (h : message.attachedMedia = some (m :: rest)) :
    renderLine customerName message =
      .ok (renderBase customerName message ++ " (** Attached file " ++ m.filename ++ " **)") := by
  rw [renderLine, h]

/-- C8 witness: for attachments `[a.png, b.png]` only `a.png` appears in the
marker. -/
theorem c8_attachment_marker_witness :
    tWithTwo.attachedMedia = some [mediaA, mediaOkB] ∧
    renderLine (some "Alice") tWithTwo =
      .ok (renderBase (some "Alice") tWithTwo ++ " (** Attached file " ++ "a.png" ++ " **)") := by
  exact ⟨rfl, c8_attachment_marker (some "Alice") tWithTwo mediaA [mediaOkB] rfl⟩

/-- C9: rendering is total on non-empty entry lists exactly when every
present `attachedMedia` is non-empty.  A present-but-empty attachment list
takes the truthy attachment-marker branch, reads element 0 of an empty
array, and the render throws. -/
theorem c9_empty_attachment (genDuration : List Transcript → String)
    (first : Transcript) (rest : List Transcript) :
    ((∀ m ∈ first :: rest, m.attachedMedia ≠ some []) →
      ∃ s, generateTranscript genDuration (first :: rest) = .ok s) ∧
    ((∃ m ∈ first :: rest, m.attachedMedia = some []) →
      ∃ e, generateTranscript genDuration (first :: rest) = .error e) := by
  constructor
  · intro h
    rw [generateTranscript_cons]
    exact renderBody_ok first.author (first :: rest) h _
  · intro h
    rw [generateTranscript_cons]
    exact renderBody_error first.author (first :: rest) h _

/-- C9 witness: a media-free entry renders; an entry whose `attachedMedia`
is a present empty list makes the render fail. -/
theorem c9_empty_attachment_witness :
    (∃ s, generateTranscript gd0 [tAlice] = .ok s) ∧
    (∃ e, generateTranscript gd0 [tEmptyAtt] = .error e) := by
  constructor
  · exact (c9_empty_attachment gd0 tAlice []).1 (by decide)
  · exact (c9_empty_attachment gd0 tEmptyAtt []).2 ⟨tEmptyAtt, List.mem_cons_self _ _, rfl⟩

/-- The spec-side reading of `getMediaUrls` for the refinement claim C10:
the object-URL fallback branch is omitted and every URL comes directly from
the media item's temporary-URL resolution. -/
def getMediaUrlsDirect (messages : Option (List Message)) : List MediaURL × List String :=
  let mediaMessages : List Message :=
    match messages with
    | some ms => ms.filter (fun message => message.attachedMedia.isSome)
    | none => []
  mediaMessages.foldl
    (fun acc message =>
      (message.attachedMedia.getD []).foldl
        (fun acc media =>
          match media.tempUrl with
          | .ok url => (acc.1 ++ [{ url := url, filename := media.filename }], acc.2)
          | .error e => (acc.1, acc.2 ++ ["Failed downloading message attachment: " ++ e]))
        acc)
    ([], [])

/-- C10: the `URL.createObjectURL` fallback of line 99 is unreachable — the
iterated media values are elements of a `Media[]` array, hence truthy, so
`getMediaUrls` coincides with the fallback-free function and every URL it
pushes comes from some media item's successful temporary-URL resolution. -/
theorem c10_fallback_unreachable (createObjectURL : Media → String)
    (messages : Option (List Message)) :
    getMediaUrls createObjectURL messages = getMediaUrlsDirect messages ∧
    ∀ mu ∈ (getMediaUrls createObjectURL messages).1,
      ∃ message, message ∈ messages.getD [] ∧
        ∃ media, media ∈ message.attachedMedia.getD [] ∧
          media.tempUrl = .ok mu.url ∧ media.filename = mu.filename := by
  constructor
  · rfl
  · intro mu hmu
    rw [getMediaUrls_eq] at hmu
    obtain ⟨media, hmed, hok, hfn⟩ := mediaSuccesses_mem hmu
    rw [allMediaOpt, allMedia] at hmed
    obtain ⟨message, hmsg, hmm⟩ := List.mem_flatMap.mp hmed
    exact ⟨message, hmsg, media, hmm, hok, hfn⟩

/-- C10 witness: for a message carrying one failed and one successful media
item, the single collected URL is the successful temporary URL. -/
theorem c10_fallback_unreachable_witness :
    (getMediaUrls env0.createObjectURL (some [msgWithMedia])).1 =
      [{ url := "url-b", filename := "b.png" }] ∧
    (∃ message, message ∈ (some [msgWithMedia] : Option (List Message)).getD [] ∧
      ∃ media, media ∈ message.attachedMedia.getD [] ∧
        media.tempUrl = .ok "url-b" ∧ media.filename = "b.png") := by
  constructor
  · rfl
  · exact (c10_fallback_unreachable env0.createObjectURL (some [msgWithMedia])).2
      { url := "url-b", filename := "b.png" } (by decide)

/-- C5: an empty extracted entry list is an error condition — `getNames`
throws on `transcriptData[0]` inside the renderer, so
`handleDownloadTranscript` aborts before the transcript blob is built and
before anything is handed to the download sink (the result is an exception,
not an outcome). -/
theorem c5_empty_transcript_rejected (env : Env) (genDuration : List Transcript → String)
    (messages : Option (List Message)) (users : Option (List User))
    (h : getTranscriptData messages users = []) :
    (∃ e, generateTranscript genDuration (getTranscriptData messages users) = .error e) ∧
    (∃ e, handleDownloadTranscript env genDuration messages users = .error e) := by
  constructor
  · exact ⟨.typeError "Cannot read properties of undefined (reading author)", by
      rw [h]; exact rfl⟩
  · refine ⟨.typeError "Cannot read properties of undefined (reading author)", ?_⟩
    rw [handleDownloadTranscript]
    simp only [h]
    exact rfl

/-- C5 witness: with both inputs absent the entry list is empty, the render
throws and the download produces no artifact. -/
theorem c5_empty_transcript_rejected_witness :
    getTranscriptData none none = [] ∧
    ((∃ e, generateTranscript gd0 (getTranscriptData none none) = .error e) ∧
     (∃ e, handleDownloadTranscript env0 gd0 none none = .error e)) :=
  ⟨rfl, c5_empty_transcript_rejected env0 gd0 none none rfl⟩

/-- C4: if every temporary-URL resolution fails (which covers the case of no
attached media at all, vacuously), a completed download hands a single plain
text blob `{stem}.txt` to the sink, with no zip folder and no zip entries. -/
theorem c4_zero_media_text_artifact (env : Env) (genDuration : List Transcript → String)
    (messages : Option (List Message)) (users : Option (List User)) (out : DownloadOutcome)
    (hok : handleDownloadTranscript env genDuration messages users = .ok out)
    (hfail : ∀ media ∈ allMediaOpt messages, media.tempUrl.isOk = false) :
    ∃ stem transcript, out.saved = some (stem ++ ".txt", transcript) ∧
      out.folderName = none ∧ out.zipEntries = [] := by
  obtain ⟨first, rest, transcript, names, htd, htr, hn, hout⟩ :=
    handleDownloadTranscript_ok_elim env genDuration messages users out hok
  have hurls : (getMediaUrls env.createObjectURL messages).1 = [] := by
    rw [getMediaUrls_eq]
    exact mediaSuccesses_nil_of_all_fail hfail
  subst hout
  rw [hurls, packageArtifact_nil]
  exact ⟨mkFileName env names first, transcript, rfl, rfl, rfl⟩

/-- C4 witness: a conversation without attachments downloads as a text blob
named `{stem}.txt`, unwrapped. -/
theorem c4_zero_media_text_artifact_witness :
    ∃ out, handleDownloadTranscript env0 gd0 (some [msgPlain]) (some [userAlice]) = .ok out ∧
      ∃ stem transcript, out.saved = some (stem ++ ".txt", transcript) ∧
        out.folderName = none ∧ out.zipEntries = [] := by
  refine ⟨_, rfl, c4_zero_media_text_artifact env0 gd0 (some [msgPlain]) (some [userAlice])
    _ rfl (by decide)⟩

/-- C2: a failed temporary-URL resolution is logged and only that item is
dropped — with two attached media refs of which the first fails and the
second succeeds, the download still completes and the zip folder holds
exactly the transcript text file plus the one successful media entry; a
successful archive generation then saves `{stem}.zip`. -/
theorem c2_partial_media (env : Env) (genDuration : List Transcript → String)
    (users : Option (List User)) (msg : Message) (mA mB : Media) (eA uB : String)
    (first : Transcript) (rest : List Transcript) (transcript : String)
    (hatt : msg.attachedMedia = some [mA, mB])
    (hA : mA.tempUrl = .error eA) (hB : mB.tempUrl = .ok uB)
    (htd : getTranscriptData (some [msg]) users = first :: rest)
    (htr : generateTranscript genDuration (first :: rest) = .ok transcript) :
    ∃ out stem, handleDownloadTranscript env genDuration (some [msg]) users = .ok out ∧
      out.folderName = some stem ∧
      out.zipEntries = [(stem ++ ".txt", Except.ok transcript), (mB.filename, env.fetch uB)] ∧
      ("Failed downloading message attachment: " ++ eA) ∈ out.logs ∧
      (∀ blob, env.zipGenerate out.zipEntries = .ok blob →
        out.saved = some (stem ++ ".zip", blob)) := by
  have hmu : getMediaUrls env.createObjectURL (some [msg]) =
      ([{ url := uB, filename := mB.filename }],
       ["Failed downloading message attachment: " ++ eA]) := by
    rw [getMediaUrls_eq]
    simp [allMediaOpt, allMedia, hatt, mediaSuccesses, mediaFailLogs, hA, hB]
  have hbuild := handleDownloadTranscript_ok_build env genDuration (some [msg]) users
    first rest transcript _ htd htr (getNames_cons first rest)
  rw [hmu] at hbuild
  refine ⟨_, mkFileName env (Names.mk first.author
      (((first :: rest).map (fun message => message.author)).filter
        (fun name => name != first.author && name != some "Concierge"))) first,
    hbuild, ?_, ?_, ?_, ?_⟩
  · exact packageArtifact_cons_folderName env _ transcript _ [] _
  · rw [packageArtifact_cons_zipEntries]
    rfl
  · exact packageArtifact_cons_logs_mem env _ transcript _ [] _ _ (List.mem_cons_self _ _)
  · intro blob hz
    rw [packageArtifact_cons_zipEntries] at hz
    exact packageArtifact_cons_saved_of_ok env _ transcript _ [] _ blob hz

/-- C2 witness: one failed and one successful media ref on a single message;
the archive holds exactly the text file plus `b.png`, and the resolution
failure is logged, not raised. -/
theorem c2_partial_media_witness :
    ∃ out stem,
      handleDownloadTranscript env0 gd0 (some [msgWithMedia]) (some [userAlice]) = .ok out ∧
      out.folderName = some stem ∧
      (∃ transcript,
        out.zipEntries = [(stem ++ ".txt", Except.ok transcript), ("b.png", env0.fetch "url-b")]) ∧
      ("Failed downloading message attachment: " ++ "boom") ∈ out.logs ∧
      (∀ blob, env0.zipGenerate out.zipEntries = .ok blob →
        out.saved = some (stem ++ ".zip", blob)) := by
  obtain ⟨out, stem, h1, h2, h3, h4, h5⟩ := c2_partial_media env0 gd0 (some [userAlice])
    msgWithMedia mediaFailF mediaOkB "boom" "url-b" (entryOf [userAlice] msgWithMedia) [] _
    rfl rfl rfl rfl rfl
  exact ⟨out, stem, h1, h2, ⟨_, h3⟩, h4, h5⟩

/-- C6: when archive generation fails, the failure is logged and nothing is
handed to the download sink — there is no fallback to a text-only
artifact. -/
theorem c6_zip_failure_no_artifact (env : Env) (genDuration : List Transcript → String)
    (messages : Option (List Message)) (users : Option (List User)) (out : DownloadOutcome)
    (e : String)
    (hok : handleDownloadTranscript env genDuration messages users = .ok out)
    (hne : out.zipEntries ≠ [])
    (hzip : env.zipGenerate out.zipEntries = .error e) :
    out.saved = none ∧ ("Failed zipping message attachments: " ++ e) ∈ out.logs := by
  obtain ⟨first, rest, transcript, names, htd, htr, hn, hout⟩ :=
    handleDownloadTranscript_ok_elim env genDuration messages users out hok
  subst hout
  cases hurls : (getMediaUrls env.createObjectURL messages).1 with
  | nil =>
    rw [hurls, packageArtifact_nil] at hne
    simp at hne
  | cons u us =>
    rw [hurls, packageArtifact_cons_zipEntries] at hzip
    obtain ⟨hsaved, hlogs⟩ := packageArtifact_cons_of_error env _ transcript u us _ e hzip
    refine ⟨hsaved, ?_⟩
    rw [hlogs]
    exact List.mem_append_right _ (List.mem_singleton_self _)

/-- C6 witness: with an environment whose archive generator fails, a
media-carrying download logs the zip failure and saves nothing. -/
theorem c6_zip_failure_no_artifact_witness :
    ∃ out,
      handleDownloadTranscript envZipFail gd0 (some [msgOkMedia]) (some [userAlice]) = .ok out ∧
      out.zipEntries ≠ [] ∧ envZipFail.zipGenerate out.zipEntries = .error "zipboom" ∧
      (out.saved = none ∧ ("Failed zipping message attachments: " ++ "zipboom") ∈ out.logs) := by
  refine ⟨_, rfl, ?_, rfl, c6_zip_failure_no_artifact envZipFail gd0 (some [msgOkMedia])
    (some [userAlice]) _ "zipboom" rfl ?_ rfl⟩
  all_goals decide
